/-
  Verification of wyoming-cloud-streamer against its specification.

  Shallow embedding of the repository's core:
    - engines.py : AudioFormat, try_parse_wav_header, GoogleTTSEngine.stream,
      OpenAITTSEngine.stream, EngineRegistry.pick
    - handler.py : CloudStreamerEventHandler.handle_event,
      _synthesize_with_engine

  Bytes are modelled as `Nat` (Python ints from `int.from_bytes` are
  unbounded, and byte values are 0..255 by construction, so no wrap-around
  modelling is needed).  Async generators become pure functions from the
  list of upstream byte fragments to the list of yielded events; the
  upstream network responses are explicit inputs.
-/
import Mathlib

/-- AudioFormat dataclass from engines.py: rate (Hz), width (bytes per
sample), channels. -/
structure AudioFormat where
  rate : Nat
  width : Nat
  channels : Nat
deriving DecidableEq

/-- Events yielded by a provider adapter stream: ('format', AudioFormat)
or ('chunk', bytes). -/
inductive AudioEvent where
  | format (f : AudioFormat)
  | chunk (data : List Nat)
deriving DecidableEq

/-- The two providers held by EngineRegistry. -/
inductive Provider where
  | google
  | openai
deriving DecidableEq

/-- Python `int.from_bytes(bs, "little", signed=False)`. -/
def bytesToNatLE : List Nat → Nat
  | [] => 0
  | b :: rest => b + 256 * bytesToNatLE rest

/-- Python slice `buf[lo:hi]` for 0 ≤ lo ≤ hi. -/
def pySlice (buf : List Nat) (lo hi : Nat) : List Nat :=
  (buf.drop lo).take (hi - lo)

/-- The bytes of b"RIFF". -/
def bRIFF : List Nat := [82, 73, 70, 70]

/-- The bytes of b"WAVE". -/
def bWAVE : List Nat := [87, 65, 86, 69]

/-- Result tuple of try_parse_wav_header:
(ok, data_offset, sr, ch, width_bytes); `sr`/`ch`/`width` are Option
because Python returns None on the branches that do not determine them. -/
structure WavParse where
  ok : Bool
  dataOffset : Nat
  sr : Option Nat
  ch : Option Nat
  width : Option Nat
deriving DecidableEq

/-- try_parse_wav_header from OpenAITTSEngine.stream (engines.py lines
97-108): below 44 bytes report not-ok; 44+ bytes without RIFF/WAVE magic
resolve as raw PCM at offset 0 with no fields; otherwise read the
little-endian fields at offsets 22, 24 and 34, with payload offset 44 and
width = bits // 8 (None when bits = 0). -/
def try_parse_wav_header (buf : List Nat) : WavParse :=
  if buf.length < 44 then
    ⟨false, 0, none, none, none⟩
  else if ¬ (pySlice buf 0 4 = bRIFF ∧ pySlice buf 8 12 = bWAVE) then
    ⟨true, 0, none, none, none⟩
  else
    let ch := bytesToNatLE (pySlice buf 22 24)
    let sr := bytesToNatLE (pySlice buf 24 28)
    let bits := bytesToNatLE (pySlice buf 34 36)
    ⟨true, 44, some sr, some ch, if bits = 0 then none else some (bits / 8)⟩

/-- Python truthiness update `if v: field = v` applied to the fallback
defaults in OpenAITTSEngine.stream (lines 127-129): None and 0 both leave
the current value in place. -/
def applyField (cur : Nat) (v : Option Nat) : Nat :=
  match v with
  | none => cur
  | some n => if n = 0 then cur else n

/-- The AudioFormat announced at header resolution (engines.py line 132),
built from the fallbacks rate=24000, width=2, channels=1 updated by the
parsed fields. -/
def fmtOf (p : WavParse) : AudioFormat :=
  ⟨applyField 24000 p.sr, applyField 2 p.width, applyField 1 p.ch⟩

/-- The byte-consuming loop of OpenAITTSEngine.stream (engines.py lines
117-143), as a function of the got_header flag, the accumulated
header_buf, and the remaining upstream byte fragments.  Empty fragments
are skipped; before the header resolves fragments are accumulated and
parsed; at resolution the format event and any trailing payload are
yielded; afterwards every fragment is forwarded as a chunk. -/
def openAILoop (gotHeader : Bool) (headerBuf : List Nat) :
    List (List Nat) → List AudioEvent
  | [] => []
  | c :: rest =>
    if c = [] then
      openAILoop gotHeader headerBuf rest
    else if gotHeader then
      AudioEvent.chunk c :: openAILoop gotHeader headerBuf rest
    else
      if (try_parse_wav_header (headerBuf ++ c)).ok then
        AudioEvent.format (fmtOf (try_parse_wav_header (headerBuf ++ c))) ::
          ((if (headerBuf ++ c).drop (try_parse_wav_header (headerBuf ++ c)).dataOffset = [] then
              []
            else
              [AudioEvent.chunk ((headerBuf ++ c).drop (try_parse_wav_header (headerBuf ++ c)).dataOffset)]) ++
            openAILoop true (headerBuf ++ c) rest)
      else
        openAILoop false (headerBuf ++ c) rest

/-- OpenAITTSEngine.stream as a function of the upstream byte fragments
produced by resp.iter_bytes(): start with got_header = False and an empty
header_buf. -/
def openAIStream (frags : List (List Nat)) : List AudioEvent :=
  openAILoop false [] frags

/-- GoogleTTSEngine.stream (engines.py lines 35-64) as a function of the
configured sample rate option (getattr(cli_args, "sample_rate", 22050))
and the audio_content fields of the upstream responses: one format event
announcing LINEAR16 mono at the configured rate, then one chunk per
response with non-empty (truthy) audio_content. -/
def googleStream (cliRate : Option Nat) (responses : List (List Nat)) :
    List AudioEvent :=
  AudioEvent.format ⟨cliRate.getD 22050, 2, 1⟩ ::
    (responses.filter fun r => !r.isEmpty).map AudioEvent.chunk

/-- Character-list version of Python `pat in s` (substring test). -/
def startsWithL : List Char → List Char → Bool
  | _, [] => true
  | [], _ :: _ => false
  | a :: s, b :: p => a = b && startsWithL s p

/-- Substring occurrence test over char lists. -/
def containsL : List Char → List Char → Bool
  | [], p => p.isEmpty
  | s :: t, p => startsWithL (s :: t) p || containsL t p

/-- Python `pat in s` for strings. -/
def strContains (s pat : String) : Bool :=
  containsL s.toList pat.toList

/-- Python str.lower (ASCII case folding as used for voice names). -/
def toLowerStr (s : String) : String :=
  String.mk (s.toList.map Char.toLower)

/-- Drop leading whitespace characters from a char list. -/
def dropWS : List Char → List Char
  | [] => []
  | c :: t => if c.isWhitespace then dropWS t else c :: t

/-- Python str.strip(): remove leading and trailing whitespace. -/
def pyStrip (s : String) : String :=
  String.mk (dropWS (dropWS s.toList.reverse).reverse)

/-- EngineRegistry.pick (engines.py lines 152-158): case-insensitive
matching of the stripped voice name against the provider name patterns; a
voice matching neither pattern falls off the end of the Python function,
i.e. returns None. -/
def EngineRegistry.pick (voiceName : String) : Option (Provider × String) :=
  let v := toLowerStr (pyStrip voiceName)
  if strContains v "-chirp3-hd-" then some (Provider.google, v)
  else if strContains v "-openai-" then some (Provider.openai, v)
  else none

/-- Helper predicates on adapter events. -/
def isChunkB : AudioEvent → Bool
  | AudioEvent.chunk _ => true
  | AudioEvent.format _ => false

/-- Recognizer for format events. -/
def isFormatB : AudioEvent → Bool
  | AudioEvent.format _ => true
  | AudioEvent.chunk _ => false

/-- Number of format events in an adapter stream. -/
def countFormats (evs : List AudioEvent) : Nat :=
  (evs.filter isFormatB).length

/-- The stream-invariant shape: empty, or a single leading format event
followed only by chunk events. -/
def formatLeads : List AudioEvent → Bool
  | [] => true
  | AudioEvent.chunk _ :: _ => false
  | AudioEvent.format _ :: rest => rest.all isChunkB

/-- Concatenation of all chunk payloads of an adapter stream. -/
def chunkJoin : List AudioEvent → List Nat
  | [] => []
  | AudioEvent.chunk d :: rest => d ++ chunkJoin rest
  | AudioEvent.format _ :: rest => chunkJoin rest

/-- The first format payload of an adapter stream, if any. -/
def firstFormat : List AudioEvent → Option AudioFormat
  | [] => none
  | AudioEvent.format f :: _ => some f
  | AudioEvent.chunk _ :: rest => firstFormat rest

/-- Events written to the client by handler.py (wyoming events). -/
inductive WyEvent where
  | info
  | audioStart (rate width channels : Nat)
  | audioChunk (data : List Nat) (rate width channels : Nat)
  | audioStop
  | synthesizeStopped
  | error (text code : String)
deriving DecidableEq

/-- The event-writing side of the relay loop in _synthesize_with_engine
(handler.py lines 144-159), with `announced` as the loop state: a format
event writes AudioStart only when send_start holds and nothing was
announced yet; every chunk event is written as an AudioChunk tagged with
the configured sample rate (default 22050), width 2, channels 1. -/
def relayOut (cliRate : Option Nat) (sendStart : Bool) :
    Bool → List AudioEvent → List WyEvent
  | _, [] => []
  | announced, AudioEvent.format f :: rest =>
    if sendStart && !announced then
      WyEvent.audioStart f.rate f.width f.channels :: relayOut cliRate sendStart true rest
    else
      relayOut cliRate sendStart announced rest
  | announced, AudioEvent.chunk d :: rest =>
    WyEvent.audioChunk d (cliRate.getD 22050) 2 1 :: relayOut cliRate sendStart announced rest

/-- The final value of the `announced` flag after the relay loop of
_synthesize_with_engine has consumed the adapter's events. -/
def relayAnn (sendStart : Bool) : Bool → List AudioEvent → Bool
  | announced, [] => announced
  | announced, AudioEvent.format _ :: rest =>
    if sendStart && !announced then relayAnn sendStart true rest
    else relayAnn sendStart announced rest
  | announced, AudioEvent.chunk _ :: rest => relayAnn sendStart announced rest

/-- Everything _synthesize_with_engine writes after engine selection
(handler.py lines 144-162): the relay loop output, then AudioStop iff
send_stop holds and a start was announced. -/
def relayEngineEvents (cliRate : Option Nat) (sendStart sendStop : Bool)
    (events : List AudioEvent) : List WyEvent :=
  relayOut cliRate sendStart false events ++
    (if sendStop && relayAnn sendStart false events then [WyEvent.audioStop] else [])

/-- The Error event written by handle_event's except block when
EngineRegistry.pick returns None and unpacking it raises TypeError
(handler.py lines 124-129, engines.py 152-158). -/
def typeErrorEvent : WyEvent :=
  WyEvent.error "cannot unpack non-iterable NoneType object" "TypeError"

/-- The Error event written when an `assert self._synthesize is not None`
fails (handler.py lines 88, 107 with lines 124-129). -/
def assertErrorEvent : WyEvent :=
  WyEvent.error "" "AssertionError"

/-- Full _synthesize_with_engine (handler.py lines 133-162) given the
adapter behaviour as a function streamOf (provider, normalized voice,
text ↦ yielded adapter events, the upstream network folded in): None
models the TypeError raised before any event is written when pick finds
no provider. -/
def synthWithEngine (cliRate : Option Nat)
    (streamOf : Provider → String → String → List AudioEvent)
    (text voiceName : String) (sendStart sendStop : Bool) :
    Option (List WyEvent) :=
  match EngineRegistry.pick voiceName with
  | none => none
  | some (p, nv) => some (relayEngineEvents cliRate sendStart sendStop (streamOf p nv text))

/-- External sentence segmenter interface (the sentence_stream library's
SentenceBoundaryDetector), abstracted over its state type. -/
structure SegOps (σ : Type) where
  init : σ
  addChunk : σ → String → σ × List String
  finish : σ → σ × String

/-- The cli_args fields the handler reads, each as Option so that
getattr defaults are explicit. -/
structure Config where
  cliRate : Option Nat
  cliVoice : Option String
  cliStreaming : Option Bool

/-- Fallback voice hard-coded in handler.py. -/
def defaultVoice : String := "en-US-Chirp3-HD-Charon"

/-- Mutable handler state: is_streaming (Optional[bool], initially None),
the segmenter, and self._synthesize as (text, voice name option). -/
structure HState (σ : Type) where
  isStreaming : Option Bool
  sbd : σ
  synth : Option (String × Option String)
deriving DecidableEq

/-- Decoded client events reaching handle_event. -/
inductive InEvent where
  | describe
  | synthesize (text : String) (voice : Option String)
  | synthStart (voice : Option String)
  | synthChunk (text : String)
  | synthStop
deriving DecidableEq

/-- Result of one handle_event call: the new handler state, the events
written, and whether an exception propagated (raised = the connection is
torn down after the error event). -/
structure HandleResult (σ : Type) where
  state : HState σ
  out : List WyEvent
  raised : Bool
deriving DecidableEq

/-- Python truthiness of Optional[bool]. -/
def truthyOpt : Option Bool → Bool
  | none => false
  | some b => b

/-- Python str.splitlines restricted to the newline character, over char
lists (after pyStrip the text has no leading or trailing line breaks). -/
def splitNL : List Char → List (List Char)
  | [] => [[]]
  | c :: t =>
    if c = '\n' then [] :: splitNL t
    else
      match splitNL t with
      | [] => [[c]]
      | l :: ls => (c :: l) :: ls

/-- Python " ".join over char lists. -/
def joinSpace : List (List Char) → List Char
  | [] => []
  | [l] => l
  | l :: ls => l ++ ' ' :: joinSpace ls

/-- Line collapsing in the one-shot branch (handler.py line 60):
the space-joined list of lines of text.strip(). -/
def collapseLines (s : String) : String :=
  String.mk (joinSpace (splitNL (pyStrip s).toList))

/-- The per-sentence loop of the stream-chunk branch (handler.py lines
92-102): an all-whitespace sentence hits `return True`, ending the loop
with no further output; otherwise self._synthesize.text is set to the
sentence and _synthesize_with_engine runs (None = pick raised TypeError,
aborting with the error event).  Returns (written events, final
_synthesize.text, raised). -/
def sentenceLoop (synthOne : String → Option (List WyEvent)) (curText : String) :
    List String → List WyEvent × String × Bool
  | [] => ([], curText, false)
  | s :: rest =>
    if pyStrip s = "" then ([], curText, false)
    else
      match synthOne s with
      | none => ([typeErrorEvent], s, true)
      | some evs =>
        let r := sentenceLoop synthOne s rest
        (evs ++ r.1, r.2.1, r.2.2)

/-- handle_event (handler.py lines 48-129) as a transition function over
the handler state, parametrized by the segmenter implementation, the
cli_args fields, and the adapter behaviour.  Branch order follows the
source: Describe; one-shot Synthesize when not streaming; the
streaming-disabled early return; SynthesizeStart / SynthesizeChunk /
SynthesizeStop; final `return True`. -/
def handleEvent {σ : Type} (ops : SegOps σ) (cfg : Config)
    (streamOf : Provider → String → String → List AudioEvent)
    (st : HState σ) : InEvent → HandleResult σ
  | InEvent.describe => ⟨st, [WyEvent.info], false⟩
  | InEvent.synthesize text voice =>
    if !truthyOpt st.isStreaming then
      if collapseLines text = "" then ⟨st, [WyEvent.audioStop], false⟩
      else
        match synthWithEngine cfg.cliRate streamOf (collapseLines text)
            (voice.getD (cfg.cliVoice.getD defaultVoice)) true true with
        | none => ⟨st, [typeErrorEvent], true⟩
        | some evs => ⟨st, evs, false⟩
    else if !(cfg.cliStreaming.getD true) then ⟨st, [], false⟩
    else ⟨st, [], false⟩
  | InEvent.synthStart voice =>
    if !(cfg.cliStreaming.getD true) then ⟨st, [], false⟩
    else ⟨⟨some true, ops.init, some ("", voice)⟩, [], false⟩
  | InEvent.synthChunk text =>
    if !(cfg.cliStreaming.getD true) then ⟨st, [], false⟩
    else
      match st.synth with
      | none => ⟨st, [assertErrorEvent], true⟩
      | some (stext, svoice) =>
        let fed := ops.addChunk st.sbd text
        let r := sentenceLoop
          (fun s => synthWithEngine cfg.cliRate streamOf s
            (svoice.getD (cfg.cliVoice.getD defaultVoice)) true true)
          stext fed.2
        ⟨⟨st.isStreaming, fed.1, some (r.2.1, svoice)⟩, r.1, r.2.2⟩
  | InEvent.synthStop =>
    if !(cfg.cliStreaming.getD true) then ⟨st, [], false⟩
    else
      match st.synth with
      | none => ⟨st, [assertErrorEvent], true⟩
      | some (stext, svoice) =>
        let fin := ops.finish st.sbd
        if fin.2 = "" then
          ⟨⟨some false, fin.1, some (stext, svoice)⟩, [WyEvent.synthesizeStopped], false⟩
        else
          match synthWithEngine cfg.cliRate streamOf fin.2
              (svoice.getD (cfg.cliVoice.getD defaultVoice)) true true with
          | none => ⟨⟨st.isStreaming, fin.1, some (stext, svoice)⟩, [typeErrorEvent], true⟩
          | some evs =>
            ⟨⟨some false, fin.1, some (stext, svoice)⟩, evs ++ [WyEvent.synthesizeStopped], false⟩

/-- Recognizer for AudioStart events. -/
def isStartB : WyEvent → Bool
  | WyEvent.audioStart .. => true
  | _ => false

/-- Recognizer for AudioStop events. -/
def isStopB : WyEvent → Bool
  | WyEvent.audioStop => true
  | _ => false

/-- Does an adapter stream contain a format event? -/
def hasFormatB (evs : List AudioEvent) : Bool :=
  evs.any isFormatB

/-- A well-formed 44-byte RIFF/WAVE header with channels=1 (offset 22),
rate=24000 (offset 24, little-endian 192 + 256*93) and bits=16 (offset
34), used to evaluate theorems at concrete inputs. -/
def wavHdr : List Nat :=
  [82, 73, 70, 70, 0, 0, 0, 0, 87, 65, 86, 69, 0, 0, 0, 0, 0, 0, 0, 0,
   0, 0, 1, 0, 192, 93, 0, 0, 0, 0, 0, 0, 0, 0, 16, 0, 0, 0, 0, 0,
   0, 0, 0, 0]

/-- A trivial segmenter instance (yields no sentences) for concrete
evaluation. -/
def segOpsUnit : SegOps Unit :=
  ⟨(), fun _ _ => ((), []), fun _ => ((), "")⟩

/-- A segmenter instance that yields a whitespace-only sentence followed
by a non-empty one, for concrete evaluation of the stream-chunk loop. -/
def segOpsWs : SegOps Unit :=
  ⟨(), fun _ _ => ((), ["   ", "Hi."]), fun _ => ((), "")⟩

/-- An adapter behaviour producing no events, for concrete evaluation. -/
def streamOfNone : Provider → String → String → List AudioEvent :=
  fun _ _ _ => []

/-- An adapter behaviour producing one format and one chunk event, for
concrete evaluation. -/
def streamOfConst : Provider → String → String → List AudioEvent :=
  fun _ _ _ => [AudioEvent.format ⟨24000, 2, 1⟩, AudioEvent.chunk [1, 2]]

/-- A Config with every cli_args attribute absent (all getattr
defaults in force). -/
def cfgDefault : Config := ⟨none, none, none⟩

/-- The relay loop never writes AudioStop; the stop is appended after the
loop. -/
theorem relayOut_no_stop (cr : Option Nat) (ss : Bool) (events : List AudioEvent) :
    ∀ ann, (relayOut cr ss ann events).filter isStopB = [] := by
  induction events with
  | nil => intro ann; rfl
  | cons e rest ih =>
    intro ann
    cases e with
    | format f =>
      by_cases h : (ss && !ann) = true
      · simp [relayOut, h, isStopB, ih]
      · simp [relayOut, h, ih]
    | chunk d => simp [relayOut, isStopB, ih]

/-- Once announced, the relay loop writes no further AudioStart. -/
theorem relayOut_starts_ann (cr : Option Nat) (ss : Bool) (events : List AudioEvent) :
    (relayOut cr ss true events).filter isStartB = [] := by
  induction events with
  | nil => rfl
  | cons e rest ih =>
    cases e with
    | format f => simp [relayOut, ih]
    | chunk d => simp [relayOut, isStartB, ih]

/-- With send_start and no prior announcement, the relay loop writes
exactly the AudioStart derived from the first format event (none if the
adapter never yields a format event). -/
theorem relayOut_starts (cr : Option Nat) (events : List AudioEvent) :
    (relayOut cr true false events).filter isStartB =
      (match firstFormat events with
       | none => []
       | some f => [WyEvent.audioStart f.rate f.width f.channels]) := by
  induction events with
  | nil => rfl
  | cons e rest ih =>
    cases e with
    | format f =>
      simp [relayOut, firstFormat, isStartB, relayOut_starts_ann]
    | chunk d =>
      simpa [relayOut, firstFormat, isStartB] using ih

/-- The final announced flag with send_start on is the disjunction of the
initial flag with the presence of a format event. -/
theorem relayAnn_true_eq (events : List AudioEvent) :
    ∀ ann, relayAnn true ann events = (ann || hasFormatB events) := by
  induction events with
  | nil => intro ann; simp [relayAnn, hasFormatB]
  | cons e rest ih =>
    intro ann
    cases e with
    | format f =>
      cases ann <;> simp [relayAnn, hasFormatB, isFormatB, ih]
    | chunk d =>
      simp [relayAnn, hasFormatB, isFormatB, ih]

/-- Every AudioChunk the relay loop writes carries the configured rate
(default 22050), width 2 and channels 1. -/
theorem relayOut_chunk_tags (cr : Option Nat) (ss : Bool) (events : List AudioEvent) :
    ∀ ann d r w c, WyEvent.audioChunk d r w c ∈ relayOut cr ss ann events →
      r = cr.getD 22050 ∧ w = 2 ∧ c = 1 := by
  induction events with
  | nil => intro ann d r w c h; simp [relayOut] at h
  | cons e rest ih =>
    intro ann d r w c h
    cases e with
    | format f =>
      by_cases hb : (ss && !ann) = true
      · simp only [relayOut, if_pos hb] at h
        rcases List.mem_cons.mp h with h | h
        · exact WyEvent.noConfusion h
        · exact ih true d r w c h
      · simp only [relayOut, if_neg hb] at h
        exact ih ann d r w c h
    | chunk d0 =>
      simp only [relayOut] at h
      rcases List.mem_cons.mp h with h | h
      · injection h with h1 h2 h3 h4
        exact ⟨h2, h3, h4⟩
      · exact ih ann d r w c h

/-- A buffer parses as ok exactly when it has at least 44 bytes. -/
theorem try_parse_ok_iff (buf : List Nat) :
    (try_parse_wav_header buf).ok = true ↔ 44 ≤ buf.length := by
  unfold try_parse_wav_header
  by_cases h : buf.length < 44
  · simp [h]
  · by_cases hm : pySlice buf 0 4 = bRIFF ∧ pySlice buf 8 12 = bWAVE
    · simp [h, hm]; omega
    · simp [h, hm]; omega

/-- The resolved payload offset is never past byte 44. -/
theorem try_parse_dataOffset_le (buf : List Nat) :
    (try_parse_wav_header buf).dataOffset ≤ 44 := by
  unfold try_parse_wav_header
  by_cases h : buf.length < 44
  · simp [h]
  · by_cases hm : pySlice buf 0 4 = bRIFF ∧ pySlice buf 8 12 = bWAVE
    · simp [h, hm]
    · simp [h, hm]

/-- Taking at most the left part of an append ignores the right part. -/
theorem takeAppendLe {α : Type} (l m : List α) (n : Nat) (h : n ≤ l.length) :
    (l ++ m).take n = l.take n := by
  induction l generalizing n with
  | nil =>
    simp at h
    subst h
    simp
  | cons a t ih =>
    cases n with
    | zero => simp
    | succ k =>
      simp only [List.cons_append, List.take_succ_cons]
      rw [ih k (by simpa using h)]

/-- Dropping within the left part of an append keeps the right part. -/
theorem dropAppendLe {α : Type} (l m : List α) (n : Nat) (h : n ≤ l.length) :
    (l ++ m).drop n = l.drop n ++ m := by
  induction l generalizing n with
  | nil =>
    simp at h
    subst h
    simp
  | cons a t ih =>
    cases n with
    | zero => simp
    | succ k =>
      simp only [List.cons_append, List.drop_succ_cons]
      exact ih k (by simpa using h)

/-- A slice that fits in the left part of an append ignores the right
part. -/
theorem pySlice_append (buf m : List Nat) (lo hi : Nat) (hlo : lo ≤ hi)
    (hhi : hi ≤ buf.length) :
    pySlice (buf ++ m) lo hi = pySlice buf lo hi := by
  unfold pySlice
  rw [dropAppendLe buf m lo (le_trans hlo hhi)]
  exact takeAppendLe _ _ _ (by simp [List.length_drop]; omega)

/-- Appending more bytes after a buffer that already holds 44 bytes does
not change the parse: all inspected offsets lie inside the first 44
bytes. -/
theorem try_parse_append (buf m : List Nat) (h : 44 ≤ buf.length) :
    try_parse_wav_header (buf ++ m) = try_parse_wav_header buf := by
  unfold try_parse_wav_header
  have h1 : ¬ (buf ++ m).length < 44 := by simp; omega
  have h2 : ¬ buf.length < 44 := by omega
  rw [pySlice_append buf m 0 4 (by omega) (by omega),
      pySlice_append buf m 8 12 (by omega) (by omega),
      pySlice_append buf m 22 24 (by omega) (by omega),
      pySlice_append buf m 24 28 (by omega) (by omega),
      pySlice_append buf m 34 36 (by omega) (by omega)]
  rw [if_neg h1, if_neg h2]

/-- After the header has resolved, the loop forwards only chunk events. -/
theorem openAILoop_true_all_chunks (rest : List (List Nat)) : ∀ hbuf,
    (openAILoop true hbuf rest).all isChunkB = true := by
  induction rest with
  | nil => intro hbuf; rfl
  | cons c t ih =>
    intro hbuf
    by_cases hc : c = []
    · simp only [openAILoop, if_pos hc]
      exact ih hbuf
    · simp only [openAILoop, if_neg hc, if_pos rfl]
      simp [isChunkB, ih hbuf]

/-- After the header has resolved, the forwarded chunks concatenate to
exactly the remaining upstream bytes. -/
theorem openAILoop_true_chunkJoin (rest : List (List Nat)) : ∀ hbuf,
    chunkJoin (openAILoop true hbuf rest) = rest.flatten := by
  induction rest with
  | nil => intro hbuf; rfl
  | cons c t ih =>
    intro hbuf
    by_cases hc : c = []
    · simp only [openAILoop, if_pos hc]
      rw [ih hbuf, hc]
      simp
    · simp only [openAILoop, if_neg hc, if_pos rfl]
      simp only [chunkJoin]
      rw [ih hbuf, List.flatten_cons]

/-- While the accumulated bytes stay below 44 in total, the OpenAI loop
never emits anything. -/
theorem openAILoop_false_unresolved (frags : List (List Nat)) : ∀ hbuf : List Nat,
    (hbuf ++ frags.flatten).length < 44 → openAILoop false hbuf frags = [] := by
  induction frags with
  | nil => intro hbuf _; rfl
  | cons c t ih =>
    intro hbuf h
    rw [List.flatten_cons] at h
    by_cases hc : c = []
    · simp only [openAILoop, if_pos hc]
      exact ih hbuf (by subst hc; simpa using h)
    · have hlen : (hbuf ++ c).length < 44 := by
        simp at h ⊢
        omega
      have hok : (try_parse_wav_header (hbuf ++ c)).ok = false := by
        rw [Bool.eq_false_iff]
        intro hcon
        exact absurd ((try_parse_ok_iff _).mp hcon) (by omega)
      simp only [openAILoop, if_neg hc, Bool.false_eq_true, if_neg (by simp [hok] : ¬ (try_parse_wav_header (hbuf ++ c)).ok = true)]
      exact ih (hbuf ++ c) (by simp at h ⊢; omega)

/-- A list of chunk events carries no format event. -/
theorem countFormats_all_chunks (l : List AudioEvent) (h : l.all isChunkB = true) :
    countFormats l = 0 := by
  induction l with
  | nil => rfl
  | cons e t ih =>
    cases e with
    | format f => simp [isChunkB] at h
    | chunk d =>
      simp only [List.all_cons, Bool.and_eq_true] at h
      simpa [countFormats, List.filter, isFormatB] using ih h.2

/-- Key resolution lemma: once the accumulated bytes reach 44, the OpenAI
loop emits exactly one format event first — the format derived from the
parse of the full upstream byte stream — followed only by chunk events,
and the chunks concatenate to everything at or past the resolved payload
offset. -/
theorem openAILoop_false_resolved (frags : List (List Nat)) : ∀ hbuf : List Nat,
    hbuf.length < 44 → 44 ≤ (hbuf ++ frags.flatten).length →
    ∃ tail : List AudioEvent,
      openAILoop false hbuf frags =
        AudioEvent.format (fmtOf (try_parse_wav_header (hbuf ++ frags.flatten))) :: tail ∧
      tail.all isChunkB = true ∧
      chunkJoin (openAILoop false hbuf frags) =
        (hbuf ++ frags.flatten).drop (try_parse_wav_header (hbuf ++ frags.flatten)).dataOffset := by
  induction frags with
  | nil =>
    intro hbuf h1 h2
    simp at h2
    omega
  | cons c t ih =>
    intro hbuf h1 h2
    rw [List.flatten_cons] at h2 ⊢
    by_cases hc : c = []
    · subst hc
      simp only [openAILoop, if_pos rfl]
      have h2' : 44 ≤ (hbuf ++ t.flatten).length := by simpa using h2
      simpa using ih hbuf h1 h2'
    · by_cases hlen : (hbuf ++ c).length < 44
      · have hok : (try_parse_wav_header (hbuf ++ c)).ok = false := by
          rw [Bool.eq_false_iff]
          intro hcon
          exact absurd ((try_parse_ok_iff _).mp hcon) (by omega)
        simp only [openAILoop, if_neg hc, if_neg (by simp [hok] : ¬ (try_parse_wav_header (hbuf ++ c)).ok = true)]
        have h2' : 44 ≤ ((hbuf ++ c) ++ t.flatten).length := by simp at h2 ⊢; omega
        have := ih (hbuf ++ c) hlen h2'
        rw [List.append_assoc] at this
        exact this
      · have hok : (try_parse_wav_header (hbuf ++ c)).ok = true :=
          (try_parse_ok_iff _).mpr (by omega)
        have hparse : try_parse_wav_header (hbuf ++ c ++ t.flatten) =
            try_parse_wav_header (hbuf ++ c) := try_parse_append _ _ (by omega)
        rw [← List.append_assoc, hparse]
        simp only [openAILoop, if_neg hc, if_pos hok]
        set p := try_parse_wav_header (hbuf ++ c) with hp
        have hoffle : p.dataOffset ≤ (hbuf ++ c).length := by
          have hle := try_parse_dataOffset_le (hbuf ++ c)
          rw [← hp] at hle
          omega
        have hdropapp : ((hbuf ++ c) ++ t.flatten).drop p.dataOffset =
            (hbuf ++ c).drop p.dataOffset ++ t.flatten :=
          dropAppendLe _ _ _ hoffle
        by_cases hpay : (hbuf ++ c).drop p.dataOffset = []
        · refine ⟨openAILoop true (hbuf ++ c) t, ?_, openAILoop_true_all_chunks t _, ?_⟩
          · simp [hpay]
          · rw [hdropapp, hpay]
            simp [hpay, chunkJoin, openAILoop_true_chunkJoin]
        · refine ⟨AudioEvent.chunk ((hbuf ++ c).drop p.dataOffset) ::
            openAILoop true (hbuf ++ c) t, ?_, ?_, ?_⟩
          · simp [hpay]
          · simp [isChunkB, openAILoop_true_all_chunks t (hbuf ++ c)]
          · rw [hdropapp]
            simp [hpay, chunkJoin, openAILoop_true_chunkJoin]

/-- Branch lemma: a short buffer parses as not-ok with no fields. -/
theorem try_parse_short (buf : List Nat) (h : buf.length < 44) :
    try_parse_wav_header buf = ⟨false, 0, none, none, none⟩ := by
  unfold try_parse_wav_header
  rw [if_pos h]

/-- Branch lemma: a 44+-byte buffer without the RIFF/WAVE magic resolves
at offset 0 with no fields. -/
theorem try_parse_nomagic (buf : List Nat) (h : ¬ buf.length < 44)
    (hm : ¬ (pySlice buf 0 4 = bRIFF ∧ pySlice buf 8 12 = bWAVE)) :
    try_parse_wav_header buf = ⟨true, 0, none, none, none⟩ := by
  unfold try_parse_wav_header
  rw [if_neg h, if_pos hm]

/-- Branch lemma: a 44+-byte buffer with the magic resolves at offset 44
with the little-endian fields read from the fixed offsets. -/
theorem try_parse_magic (buf : List Nat) (h : ¬ buf.length < 44)
    (hm : pySlice buf 0 4 = bRIFF ∧ pySlice buf 8 12 = bWAVE) :
    try_parse_wav_header buf =
      ⟨true, 44, some (bytesToNatLE (pySlice buf 24 28)),
        some (bytesToNatLE (pySlice buf 22 24)),
        if bytesToNatLE (pySlice buf 34 36) = 0 then none
        else some (bytesToNatLE (pySlice buf 34 36) / 8)⟩ := by
  unfold try_parse_wav_header
  rw [if_neg h, if_neg (not_not_intro hm)]

/-- A two-byte slice in bounds is the pair of bytes at its offsets. -/
theorem pySlice_two (buf : List Nat) (lo : Nat) (h : lo + 1 < buf.length) :
    pySlice buf lo (lo + 2) = [buf.getD lo 0, buf.getD (lo + 1) 0] := by
  induction buf generalizing lo with
  | nil => simp at h
  | cons a t ih =>
    cases lo with
    | zero =>
      match t, h with
      | b :: t', _ => simp [pySlice, List.getD]
    | succ k =>
      have h' : k + 1 < t.length := by simp at h; omega
      have hk := ih k h'
      simp only [pySlice, List.drop_succ_cons, List.getD_cons_succ] at hk ⊢
      have e : k + 1 + 2 - (k + 1) = k + 2 - k := by omega
      rw [e]
      exact hk

/-- A four-byte slice in bounds is the quadruple of bytes at its
offsets. -/
theorem pySlice_four (buf : List Nat) (lo : Nat) (h : lo + 3 < buf.length) :
    pySlice buf lo (lo + 4) =
      [buf.getD lo 0, buf.getD (lo + 1) 0, buf.getD (lo + 2) 0, buf.getD (lo + 3) 0] := by
  induction buf generalizing lo with
  | nil => simp at h
  | cons a t ih =>
    cases lo with
    | zero =>
      match t, h with
      | b :: c :: d :: t', _ => simp [pySlice, List.getD]
    | succ k =>
      have h' : k + 3 < t.length := by simp at h; omega
      have hk := ih k h'
      simp only [pySlice, List.drop_succ_cons, List.getD_cons_succ] at hk ⊢
      have e : k + 1 + 4 - (k + 1) = k + 4 - k := by omega
      rw [e]
      exact hk

/-- Little-endian decoding of two bytes. -/
theorem bytesToNatLE_two (a b : Nat) : bytesToNatLE [a, b] = a + 256 * b := by
  simp [bytesToNatLE]

/-- Little-endian decoding of four bytes. -/
theorem bytesToNatLE_four (a b c d : Nat) :
    bytesToNatLE [a, b, c, d] = a + 256 * b + 65536 * c + 16777216 * d := by
  simp [bytesToNatLE]
  ring

/-- The width fallback chain: bits = 0 leaves the default width 2 (the
parse returns None), and bits // 8 = 0 also leaves it (Python falsiness
of 0). -/
theorem applyField_width (bits : Nat) :
    applyField 2 (if bits = 0 then none else some (bits / 8)) =
      if bits / 8 = 0 then 2 else bits / 8 := by
  by_cases hb : bits = 0
  · rw [if_pos hb, hb]
    rfl
  · rw [if_neg hb]
    rfl

/-- A mapped chunk list consists only of chunk events. -/
theorem all_chunks_map (l : List (List Nat)) :
    (l.map AudioEvent.chunk).all isChunkB = true := by
  induction l with
  | nil => rfl
  | cons a t ih => simp [isChunkB, ih]

example : bytesToNatLE [192, 93] = 24000 := by decide

example : EngineRegistry.pick "en-US-Chirp3-HD-Charon" =
    some (Provider.google, "en-us-chirp3-hd-charon") := by decide

example : EngineRegistry.pick "bogus" = none := by decide

example : openAIStream [[0]] = [] := by decide

/-- Claim C1 (counterexample): as stated — "for every provider adapter
stream ... the sequence of yielded AudioEvents contains exactly one
('format', AudioFormat) event" — the claim fails on the code: an
OpenAITTSEngine.stream run whose upstream delivers a single 1-byte
fragment (fewer than 44 bytes in total) yields no events at all, hence
zero format events rather than exactly one. -/
theorem claim_C1_counterexample : ¬ countFormats (openAIStream [[0]]) = 1 := by
  decide

/-- Claim C1 (amended): every GoogleTTSEngine.stream sequence contains
exactly one format event and it precedes every chunk event; every
OpenAITTSEngine.stream sequence contains at most one format event, the
format (when present) precedes every chunk event, is never repeated, and
no chunk event is ever yielded without a preceding format event; the
OpenAI stream contains exactly one format event whenever the upstream
delivers at least 44 bytes in total. -/
theorem claim_C1_amended (cliRate : Option Nat) (responses frags : List (List Nat)) :
    formatLeads (googleStream cliRate responses) = true ∧
    countFormats (googleStream cliRate responses) = 1 ∧
    formatLeads (openAIStream frags) = true ∧
    countFormats (openAIStream frags) ≤ 1 ∧
    (44 ≤ frags.flatten.length → countFormats (openAIStream frags) = 1) := by
  have hg1 : formatLeads (googleStream cliRate responses) = true := by
    simp [googleStream, formatLeads, all_chunks_map]
  have hg2 : countFormats (googleStream cliRate responses) = 1 := by
    simp only [googleStream, countFormats, List.filter, isFormatB]
    rw [List.length_cons]
    have := countFormats_all_chunks _ (all_chunks_map ((responses.filter fun r => !r.isEmpty)))
    simp only [countFormats] at this
    omega
  refine ⟨hg1, hg2, ?_, ?_, ?_⟩
  all_goals
    by_cases h44 : 44 ≤ frags.flatten.length
  · obtain ⟨tail, heq, hall, _⟩ :=
      openAILoop_false_resolved frags [] (by simp) (by simpa using h44)
    unfold openAIStream
    rw [heq]
    simp [formatLeads, hall]
  · rw [show openAIStream frags = [] from
      openAILoop_false_unresolved frags [] (by simpa using Nat.lt_of_not_le h44)]
    rfl
  · obtain ⟨tail, heq, hall, _⟩ :=
      openAILoop_false_resolved frags [] (by simp) (by simpa using h44)
    unfold openAIStream
    rw [heq]
    simp only [countFormats, List.filter, isFormatB]
    rw [List.length_cons]
    have := countFormats_all_chunks tail hall
    simp only [countFormats] at this
    omega
  · rw [show openAIStream frags = [] from
      openAILoop_false_unresolved frags [] (by simpa using Nat.lt_of_not_le h44)]
    simp [countFormats]
  · intro h
    obtain ⟨tail, heq, hall, _⟩ :=
      openAILoop_false_resolved frags [] (by simp) (by simpa using h)
    unfold openAIStream
    rw [heq]
    simp only [countFormats, List.filter, isFormatB]
    rw [List.length_cons]
    have := countFormats_all_chunks tail hall
    simp only [countFormats] at this
    omega
  · intro h
    exact absurd h h44

/-- Claim C1 (witness): the amended theorem applied to a concrete OpenAI
upstream delivering 44 zero bytes: exactly one format event. -/
theorem claim_C1_witness :
    countFormats (openAIStream [List.replicate 44 0]) = 1 :=
  (claim_C1_amended none [] [List.replicate 44 0]).2.2.2.2 (by decide)

/-- Claim C2: for an utterance relayed by _synthesize_with_engine with
send_start and send_stop true, over any adapter event sequence: the
AudioStart events written are exactly one per first adapter format event
(carrying its fields) and none otherwise; the AudioStop events written
are exactly one iff a format event occurred (so stop iff start, at most
one of each, never a stop without a start); and the AudioStop, when
present, is the last event written (after the adapter sequence is
exhausted). -/
theorem claim_C2 (cliRate : Option Nat) (events : List AudioEvent) :
    (relayEngineEvents cliRate true true events).filter isStartB =
      (match firstFormat events with
       | none => []
       | some f => [WyEvent.audioStart f.rate f.width f.channels]) ∧
    (relayEngineEvents cliRate true true events).filter isStopB =
      (if hasFormatB events then [WyEvent.audioStop] else []) ∧
    (hasFormatB events = true →
      (relayEngineEvents cliRate true true events).getLast? = some WyEvent.audioStop) := by
  unfold relayEngineEvents
  rw [relayAnn_true_eq events false]
  refine ⟨?_, ?_, ?_⟩
  · rw [List.filter_append, relayOut_starts]
    by_cases h : hasFormatB events = true
    · simp [h, isStartB]
    · simp [h]
  · rw [List.filter_append, relayOut_no_stop]
    by_cases h : hasFormatB events = true
    · simp [h, isStopB]
    · simp [h]
  · intro h
    simp only [h, Bool.false_or, Bool.and_true]
    rw [if_pos trivial]
    exact List.getLast?_concat _

/-- Claim C2 (witness): the theorem applied to a concrete adapter
sequence with one format event. -/
theorem claim_C2_witness :
    (relayEngineEvents none true true [AudioEvent.format ⟨24000, 2, 1⟩]).getLast? =
      some WyEvent.audioStop :=
  (claim_C2 none [AudioEvent.format ⟨24000, 2, 1⟩]).2.2 (by decide)

/-- Claim C4: if the OpenAI upstream ends before 44 bytes have
accumulated, the adapter yields no format event and no chunk event (the
empty event sequence), and the relay consequently writes nothing at all
for the utterance — no audio events of undefined format. -/
theorem claim_C4 (cliRate : Option Nat) (sendStart sendStop : Bool)
    (frags : List (List Nat)) (h : frags.flatten.length < 44) :
    openAIStream frags = [] ∧
    relayEngineEvents cliRate sendStart sendStop (openAIStream frags) = [] := by
  have he : openAIStream frags = [] :=
    openAILoop_false_unresolved frags [] (by simpa using h)
  refine ⟨he, ?_⟩
  rw [he]
  simp [relayEngineEvents, relayOut, relayAnn]

/-- Claim C4 (witness): the theorem applied to a concrete 3-byte
upstream. -/
theorem claim_C4_witness :
    openAIStream [[1, 2, 3]] = [] ∧
    relayEngineEvents none true true (openAIStream [[1, 2, 3]]) = [] :=
  claim_C4 none true true [[1, 2, 3]] (by decide)

/-- Claim C9: every AudioChunk written by _synthesize_with_engine is
tagged with rate = configured sample_rate (default 22050), width 2 and
channels 1, whatever the adapter's events — in particular regardless of
the AudioFormat announced in the utterance's AudioStart. -/
theorem claim_C9 (cliRate : Option Nat) (sendStart sendStop : Bool)
    (events : List AudioEvent) (d : List Nat) (r w c : Nat)
    (h : WyEvent.audioChunk d r w c ∈ relayEngineEvents cliRate sendStart sendStop events) :
    r = cliRate.getD 22050 ∧ w = 2 ∧ c = 1 := by
  unfold relayEngineEvents at h
  rcases List.mem_append.mp h with h | h
  · exact relayOut_chunk_tags cliRate sendStart events false d r w c h
  · by_cases hb : (sendStop && relayAnn sendStart false events) = true
    · rw [if_pos hb] at h
      simp at h
    · rw [if_neg hb] at h
      simp at h

/-- Claim C9 (witness): the theorem applied to a concrete adapter
sequence announcing a 24000 Hz format: the chunk is still tagged
22050/2/1. -/
theorem claim_C9_witness :
    22050 = (none : Option Nat).getD 22050 ∧ 2 = 2 ∧ 1 = 1 :=
  claim_C9 none true true [AudioEvent.format ⟨24000, 2, 1⟩, AudioEvent.chunk [7]]
    [7] 22050 2 1 (by decide)

/-- Claim C5: when try_parse_wav_header resolves a buffer carrying the
RIFF/WAVE magic, it reads the channel count as little-endian 16-bit at
offset 22, the sample rate as little-endian 32-bit at offset 24, the
bits-per-sample as little-endian 16-bit at offset 34, fixes the payload
offset at 44 and derives the sample width as bits / 8; and in the
announced format a zero value in any field leaves the caller's fallback
default of 24000 Hz / mono / 16-bit (width 2) in place. -/
theorem claim_C5 (buf : List Nat) (h : 44 ≤ buf.length)
    (hR : pySlice buf 0 4 = bRIFF) (hW : pySlice buf 8 12 = bWAVE) :
    (try_parse_wav_header buf).ok = true ∧
    (try_parse_wav_header buf).dataOffset = 44 ∧
    (try_parse_wav_header buf).ch = some (buf.getD 22 0 + 256 * buf.getD 23 0) ∧
    (try_parse_wav_header buf).sr = some (buf.getD 24 0 + 256 * buf.getD 25 0 +
      65536 * buf.getD 26 0 + 16777216 * buf.getD 27 0) ∧
    (try_parse_wav_header buf).width =
      (if buf.getD 34 0 + 256 * buf.getD 35 0 = 0 then none
       else some ((buf.getD 34 0 + 256 * buf.getD 35 0) / 8)) ∧
    fmtOf (try_parse_wav_header buf) =
      ⟨(if buf.getD 24 0 + 256 * buf.getD 25 0 + 65536 * buf.getD 26 0 +
           16777216 * buf.getD 27 0 = 0 then 24000
        else buf.getD 24 0 + 256 * buf.getD 25 0 + 65536 * buf.getD 26 0 +
           16777216 * buf.getD 27 0),
       (if (buf.getD 34 0 + 256 * buf.getD 35 0) / 8 = 0 then 2
        else (buf.getD 34 0 + 256 * buf.getD 35 0) / 8),
       (if buf.getD 22 0 + 256 * buf.getD 23 0 = 0 then 1
        else buf.getD 22 0 + 256 * buf.getD 23 0)⟩ := by
  have h22 := pySlice_two buf 22 (by omega)
  have h24 := pySlice_four buf 24 (by omega)
  have h34 := pySlice_two buf 34 (by omega)
  rw [show (22 : Nat) + 2 = 24 from rfl, show (22 : Nat) + 1 = 23 from rfl] at h22
  rw [show (24 : Nat) + 4 = 28 from rfl, show (24 : Nat) + 1 = 25 from rfl,
    show (24 : Nat) + 2 = 26 from rfl, show (24 : Nat) + 3 = 27 from rfl] at h24
  rw [show (34 : Nat) + 2 = 36 from rfl, show (34 : Nat) + 1 = 35 from rfl] at h34
  have hp := try_parse_magic buf (by omega) ⟨hR, hW⟩
  rw [h22, h24, h34, bytesToNatLE_two, bytesToNatLE_four, bytesToNatLE_two] at hp
  rw [hp]
  refine ⟨rfl, rfl, rfl, rfl, rfl, ?_⟩
  simp only [fmtOf]
  rw [applyField_width]
  rfl

/-- Claim C5 (witness): the theorem applied to the concrete header
wavHdr (channels=1, rate=24000, bits=16) announces 24000 Hz, width 2,
mono. -/
theorem claim_C5_witness : fmtOf (try_parse_wav_header wavHdr) = ⟨24000, 2, 1⟩ := by
  rw [(claim_C5 wavHdr (by decide) (by decide) (by decide)).2.2.2.2.2]
  decide

/-- Claim C6: feeding fewer than 44 bytes leaves the header detector
unresolved (ok = false, nothing determined) and the OpenAI loop emits
nothing at such a step, only accumulating the fragment; once 44 or more
bytes are present without the RIFF/WAVE magic at offsets 0 and 8, it
resolves immediately with payload offset 0 and no field set, so the
announced format stays at the caller's fallback 24000 Hz / width 2 /
mono. -/
theorem claim_C6 (buf hbuf c : List Nat) (rest : List (List Nat)) :
    (buf.length < 44 → try_parse_wav_header buf = ⟨false, 0, none, none, none⟩) ∧
    ((hbuf ++ c).length < 44 →
      openAILoop false hbuf (c :: rest) = openAILoop false (hbuf ++ c) rest) ∧
    (44 ≤ buf.length →
      ¬ (pySlice buf 0 4 = bRIFF ∧ pySlice buf 8 12 = bWAVE) →
      try_parse_wav_header buf = ⟨true, 0, none, none, none⟩ ∧
      fmtOf (try_parse_wav_header buf) = ⟨24000, 2, 1⟩) := by
  refine ⟨fun h => try_parse_short buf h, ?_, ?_⟩
  · intro h
    by_cases hc : c = []
    · simp only [openAILoop, if_pos hc]
      rw [hc, List.append_nil]
    · have hok : (try_parse_wav_header (hbuf ++ c)).ok = false := by
        rw [Bool.eq_false_iff]
        intro hcon
        exact absurd ((try_parse_ok_iff _).mp hcon) (by omega)
      simp [openAILoop, hc, hok]
  · intro h hm
    have hp := try_parse_nomagic buf (by omega) hm
    rw [hp]
    exact ⟨rfl, rfl⟩

/-- Claim C6 (witness): the theorem applied to a 1-byte buffer (still
incomplete) and to 44 zero bytes (no magic: resolves at offset 0 with no
format override). -/
theorem claim_C6_witness :
    try_parse_wav_header [0] = ⟨false, 0, none, none, none⟩ ∧
    try_parse_wav_header (List.replicate 44 0) = ⟨true, 0, none, none, none⟩ :=
  ⟨(claim_C6 [0] [] [] []).1 (by decide),
   ((claim_C6 (List.replicate 44 0) [] [] []).2.2 (by decide) (by decide)).1⟩

/-- Claim C7: when the upstream bytes are a well-formed 44-byte header
(RIFF/WAVE magic, channels=1, rate=24000, bits=16) followed by a payload,
however they are split into feed fragments, the OpenAI adapter emits the
format event AudioFormat(24000, 2, 1) first, everything after it is a
chunk event, and the chunk payloads concatenate to exactly the payload
bytes — every byte at or past the payload offset surfaced exactly once,
never dropped and never re-delivered. -/
theorem claim_C7 (frags : List (List Nat)) (hdr payload : List Nat)
    (hsplit : frags.flatten = hdr ++ payload)
    (hlen : hdr.length = 44)
    (hR : pySlice hdr 0 4 = bRIFF) (hW : pySlice hdr 8 12 = bWAVE)
    (hch : bytesToNatLE (pySlice hdr 22 24) = 1)
    (hsr : bytesToNatLE (pySlice hdr 24 28) = 24000)
    (hbits : bytesToNatLE (pySlice hdr 34 36) = 16) :
    ∃ tail : List AudioEvent,
      openAIStream frags = AudioEvent.format ⟨24000, 2, 1⟩ :: tail ∧
      tail.all isChunkB = true ∧
      chunkJoin (openAIStream frags) = payload := by
  have h44 : 44 ≤ frags.flatten.length := by
    rw [hsplit]
    simp
    omega
  have hparse : try_parse_wav_header frags.flatten = ⟨true, 44, some 24000, some 1, some 2⟩ := by
    rw [hsplit, try_parse_append hdr payload (by omega),
      try_parse_magic hdr (by omega) ⟨hR, hW⟩, hch, hsr, hbits]
    norm_num
  have hdrop : frags.flatten.drop 44 = payload := by
    rw [hsplit, ← hlen, dropAppendLe hdr payload hdr.length le_rfl, List.drop_length,
      List.nil_append]
  obtain ⟨tail, heq, hall, hjoin⟩ :=
    openAILoop_false_resolved frags [] (by simp) (by simpa using h44)
  rw [List.nil_append] at heq hjoin
  rw [hparse] at heq hjoin
  refine ⟨tail, ?_, hall, ?_⟩
  · unfold openAIStream
    rw [heq]
    rfl
  · unfold openAIStream
    rw [hjoin]
    exact hdrop

/-- Claim C7 (witness): the theorem applied to the header wavHdr and
payload [9, 9, 7] split across three feed fragments (header split at
byte 10, payload split across the last two fragments). -/
theorem claim_C7_witness :
    chunkJoin (openAIStream [wavHdr.take 10, wavHdr.drop 10 ++ [9, 9], [7]]) = [9, 9, 7] := by
  obtain ⟨tail, h1, h2, h3⟩ :=
    claim_C7 [wavHdr.take 10, wavHdr.drop 10 ++ [9, 9], [7]] wavHdr [9, 9, 7]
      (by decide) (by decide) (by decide) (by decide) (by decide) (by decide) (by decide)
  exact h3

/-- Claim C3 (counterexample): the claim says an unroutable voice
surfaces an Error whose category tag is UnroutableVoice; on the code the
registry's fall-through None is unpacked in _synthesize_with_engine,
raising TypeError, so the Error event written by handle_event's except
block carries code "TypeError" — no event with an UnroutableVoice tag is
ever written.  Evaluated at the concrete voice "bogus-voice". -/
theorem claim_C3_counterexample :
    (handleEvent segOpsUnit cfgDefault streamOfNone ⟨none, (), none⟩
        (InEvent.synthesize "Hello" (some "bogus-voice"))).out =
      [WyEvent.error "cannot unpack non-iterable NoneType object" "TypeError"] ∧
    ∀ e ∈ (handleEvent segOpsUnit cfgDefault streamOfNone ⟨none, (), none⟩
        (InEvent.synthesize "Hello" (some "bogus-voice"))).out,
      ∀ t : String, e ≠ WyEvent.error t "UnroutableVoice" := by
  have hout : (handleEvent segOpsUnit cfgDefault streamOfNone ⟨none, (), none⟩
      (InEvent.synthesize "Hello" (some "bogus-voice"))).out =
      [WyEvent.error "cannot unpack non-iterable NoneType object" "TypeError"] := by
    decide
  refine ⟨hout, ?_⟩
  intro e he t hcon
  rw [hout, List.mem_singleton] at he
  rw [he] at hcon
  injection hcon with h1 h2
  exact absurd h2 (by decide)

/-- Claim C3 (amended): for every voice identifier whose stripped,
lowercased form contains neither "-chirp3-hd-" nor "-openai-", a one-shot
synthesis request with non-empty collapsed text emits no audio event and
writes exactly one structured Error event — whose category tag is the
raised exception's class name "TypeError" (from unpacking the registry's
None), not UnroutableVoice — and the exception is re-raised, aborting the
request with no fallback to a default provider. -/
theorem claim_C3_amended {σ : Type} (ops : SegOps σ) (cfg : Config)
    (streamOf : Provider → String → String → List AudioEvent)
    (st : HState σ) (text : String) (voice : Option String)
    (hstream : truthyOpt st.isStreaming = false)
    (htext : ¬ collapseLines text = "")
    (hg : strContains (toLowerStr (pyStrip (voice.getD (cfg.cliVoice.getD defaultVoice))))
      "-chirp3-hd-" = false)
    (ho : strContains (toLowerStr (pyStrip (voice.getD (cfg.cliVoice.getD defaultVoice))))
      "-openai-" = false) :
    handleEvent ops cfg streamOf st (InEvent.synthesize text voice) =
      ⟨st, [typeErrorEvent], true⟩ := by
  have hpick : EngineRegistry.pick (voice.getD (cfg.cliVoice.getD defaultVoice)) = none := by
    simp [EngineRegistry.pick, hg, ho]
  simp only [handleEvent, hstream, Bool.not_false, if_neg htext,
    synthWithEngine, hpick]
  rw [if_pos trivial]

/-- Claim C3 (witness): the amended theorem applied at the concrete voice
"bogus-voice" and text "Hello". -/
theorem claim_C3_witness :
    handleEvent segOpsUnit cfgDefault streamOfNone ⟨none, (), none⟩
        (InEvent.synthesize "Hello" (some "bogus-voice")) =
      ⟨⟨none, (), none⟩, [typeErrorEvent], true⟩ :=
  claim_C3_amended segOpsUnit cfgDefault streamOfNone ⟨none, (), none⟩
    "Hello" (some "bogus-voice") (by decide) (by decide) (by decide) (by decide)

/-- Claim C8 (code_bug evaluation): when the segmenter yields an
all-whitespace sentence followed by the non-empty sentence "Hi." in the
same stream chunk, the handler's `return True` inside the sentence loop
(handler.py line 94) abandons the loop: nothing at all is written (no
audio for "Hi.") and no exception is raised — even though the selected
engine would synthesize "Hi." (third conjunct: the relay output
_synthesize_with_engine would have produced for it).  The claim (and the
spec's no-op wording) instead requires "Hi." to be synthesized. -/
theorem claim_C8_code_bug :
    (handleEvent segOpsWs cfgDefault streamOfConst
        ⟨some true, (), some ("", some "en-US-openai-alloy")⟩
        (InEvent.synthChunk "   Hi.")).out = [] ∧
    (handleEvent segOpsWs cfgDefault streamOfConst
        ⟨some true, (), some ("", some "en-US-openai-alloy")⟩
        (InEvent.synthChunk "   Hi.")).raised = false ∧
    synthWithEngine cfgDefault.cliRate streamOfConst "Hi." "en-US-openai-alloy" true true =
      some [WyEvent.audioStart 24000 2 1, WyEvent.audioChunk [1, 2] 22050 2 1,
        WyEvent.audioStop] := by
  decide

/-- Claim C10: while a text stream is open (is_streaming truthy), a
one-shot Synthesize event on the same connection is ignored entirely: the
handler returns success with no events written, no exception, and the
state — including the segmenter and stream bookkeeping — unchanged. -/
theorem claim_C10 {σ : Type} (ops : SegOps σ) (cfg : Config)
    (streamOf : Provider → String → String → List AudioEvent)
    (st : HState σ) (text : String) (voice : Option String)
    (h : truthyOpt st.isStreaming = true) :
    handleEvent ops cfg streamOf st (InEvent.synthesize text voice) = ⟨st, [], false⟩ := by
  simp only [handleEvent, h, Bool.not_true, Bool.false_eq_true, if_false]
  split <;> rfl

/-- Claim C10 (witness): the theorem applied at a concrete open-stream
state. -/
theorem claim_C10_witness :
    handleEvent segOpsUnit cfgDefault streamOfNone ⟨some true, (), some ("", none)⟩
        (InEvent.synthesize "Hello" (some "en-US-openai-alloy")) =
      ⟨⟨some true, (), some ("", none)⟩, [], false⟩ :=
  claim_C10 segOpsUnit cfgDefault streamOfNone ⟨some true, (), some ("", none)⟩
    "Hello" (some "en-US-openai-alloy") (by decide)
